import Mathlib

/-!
Verification development for the HLTB API client (src/backend/hltb.lua).

The Lua module is shallowly embedded: module-level mutable caches become an
explicit `Cache` record threaded through the functions, HTTP transport and
JSON decoding become function parameters ("oracles") describing what the
network would answer, and each instrumented function additionally returns the
number of network requests it issued.  The string-library primitives used by
the endpoint scanner (Lua gmatch / find patterns) and the external
hltb_utils module (sanitize_game_name, levenshtein_distance, both outside
src/backend) are taken as opaque function parameters, exactly as the Lua code
consumes them.  Lua numbers arriving from JSON are modelled as `LuaVal` with
a rational payload (JSON numbers are decimal, hence rational); Lua type
checks translate to checks of the `LuaVal` constructor.
-/

/-- Lua value as seen after json.decode, restricted to the shapes the client
inspects: a number (Lua type "number", payload modelled as a rational since
JSON numbers need not be integral), a string (Lua type "string"), or anything
else (nil, boolean, table, ...). -/
inductive LuaVal where
  | num (q : Rat)
  | str (s : String)
  | other
deriving DecidableEq, Repr

/-- Lua `type(v) == "number"` check. -/
def LuaVal.isNum : LuaVal → Bool
  | .num _ => true
  | _ => false

/-- Lua `type(v) == "string"` check. -/
def LuaVal.isStr : LuaVal → Bool
  | .str _ => true
  | _ => false

/-- A validated search result item as used by search_best_match: the three
fields the search validator guarantees (game_id, game_name, comp_all_count). -/
structure SearchItem where
  game_id : Int
  game_name : String
  comp_all_count : Int
deriving DecidableEq, Repr

/-- A detail record as used for Steam-id confirmation: only profile_steam is
consulted by the resolver. -/
structure GameData where
  profile_steam : Int
deriving DecidableEq, Repr

/-- An entry of possible_choices in search_best_match (hltb.lua lines
518-527). -/
structure Choice where
  distance : Nat
  comp_all_count : Int
  item : SearchItem
deriving DecidableEq, Repr

/-- Result of one search_best_match run, instrumented with the number of
fetch_game_data calls and the number of levenshtein_distance computations. -/
structure ResolveTrace where
  result : Option SearchItem
  detail_calls : Nat
  lev_calls : Nat
deriving DecidableEq, Repr

/-- Lua string.lower: ASCII case-fold of every character (Char.toLower only
lowercases the ASCII range, matching Lua semantics). -/
def lower_ascii (s : String) : String :=
  String.mk (s.data.map Char.toLower)

/-- Normalization applied to titles in search_best_match (hltb.lua line 509):
utils.sanitize_game_name(name):lower().  The sanitizer lives in the external
hltb_utils module and is passed in as a black-box string transform. -/
def normalize_name (sanitize : String → String) (s : String) : String :=
  lower_ascii (sanitize s)

/-- The comparator passed to table.sort in search_best_match (hltb.lua lines
530-535): ascending distance, ties broken by descending comp_all_count. -/
def rank_lt (a b : Choice) : Bool :=
  if a.distance = b.distance then
    decide (b.comp_all_count < a.comp_all_count)
  else
    decide (a.distance < b.distance)

/-- Insert into a list sorted by rank_lt, keeping earlier-ranked entries
first.  Lua table.sort produces some permutation sorted by the comparator;
this insertion sort realises one such permutation. -/
def insert_ranked (a : Choice) : List Choice → List Choice
  | [] => [a]
  | b :: rest => if rank_lt b a then b :: insert_ranked a rest else a :: b :: rest

/-- Sort of possible_choices by the rank_lt comparator (hltb.lua line 530). -/
def sort_choices (l : List Choice) : List Choice :=
  l.foldr insert_ranked []

/-- The ranked candidate list built by search_best_match for a result list
with no exact match (hltb.lua lines 518-535): one levenshtein distance per
candidate, then sort. -/
def ranked_choices (sanitize : String → String) (lev : String → String → Nat)
    (app_name : String) (data : List SearchItem) : List Choice :=
  let napp := normalize_name sanitize app_name
  sort_choices (data.map (fun it =>
    { distance := lev napp (normalize_name sanitize it.game_name)
      comp_all_count := it.comp_all_count
      item := it }))

/-- Whether fetch_game_data on the candidate's game_id yields a record whose
profile_steam equals the supplied Steam app id (hltb.lua line 543). -/
def confirms (fetch : Int → Option GameData) (sid : Int) (c : Choice) : Bool :=
  match fetch c.item.game_id with
  | some gd => gd.profile_steam == sid
  | none => false

/-- The bounded Steam-id confirmation loop of search_best_match (hltb.lua
lines 540-547) over a prefix of the ranked candidates: fetch each candidate's
detail record in order, return the first whose profile_steam matches, count
one detail fetch per visited candidate, and treat fetch failure as a miss. -/
def confirm_loop (fetch : Int → Option GameData) (sid : Int) :
    List Choice → Option SearchItem × Nat
  | [] => (none, 0)
  | c :: rest =>
    match fetch c.item.game_id with
    | some gd =>
      if gd.profile_steam == sid then (some c.item, 1)
      else
        let r := confirm_loop fetch sid rest
        (r.1, r.2 + 1)
    | none =>
      let r := confirm_loop fetch sid rest
      (r.1, r.2 + 1)

/-- The maximum number of Steam-id confirmation fetches
(max_steam_id_checks, hltb.lua line 539). -/
def max_steam_id_checks : Nat := 3

/-- The Steam-id branch of search_best_match (hltb.lua lines 537-555): run
the bounded confirmation loop over the top max_steam_id_checks ranked
candidates; if it confirms a candidate return that item, otherwise fall back
to the best-ranked candidate.  n is the number of levenshtein computations
already performed (one per search result). -/
def steam_confirm_result (fetch : Int → Option GameData) (sid : Int)
    (ranked : List Choice) (n : Nat) : ResolveTrace :=
  match confirm_loop fetch sid (ranked.take max_steam_id_checks) with
  | (some it, calls) => { result := some it, detail_calls := calls, lev_calls := n }
  | (none, calls) =>
    { result := ranked.head?.map (fun c => c.item)
      detail_calls := calls
      lev_calls := n }

/-- search_best_match (hltb.lua lines 490-558), from the point where the
search response is available.  search_results = none models a failed search
(M.search returned nil); some data models a successful search with result
list data.  sanitize and lev stand for the external hltb_utils functions,
fetch for fetch_game_data restricted to the field the resolver reads. -/
def search_best_match (sanitize : String → String) (lev : String → String → Nat)
    (fetch : Int → Option GameData) (app_name : String) (steam_app_id : Option Int)
    (search_results : Option (List SearchItem)) : ResolveTrace :=
  match search_results with
  | none => { result := none, detail_calls := 0, lev_calls := 0 }
  | some data =>
    if data.isEmpty then { result := none, detail_calls := 0, lev_calls := 0 }
    else
      match data.find? (fun it =>
          normalize_name sanitize it.game_name == normalize_name sanitize app_name) with
      | some it => { result := some it, detail_calls := 0, lev_calls := 0 }
      | none =>
        match steam_app_id with
        | some sid =>
          steam_confirm_result fetch sid
            (ranked_choices sanitize lev app_name data) data.length
        | none =>
          { result := (ranked_choices sanitize lev app_name data).head?.map
              (fun c => c.item)
            detail_calls := 0
            lev_calls := data.length }

/-- Claim C9: a successful search with zero results makes resolveBestMatch
return NotFound (none) with no detail fetch (and no distance computation). -/
theorem empty_results_give_not_found (sanitize : String → String)
    (lev : String → String → Nat) (fetch : Int → Option GameData)
    (app_name : String) (steam_app_id : Option Int) :
    search_best_match sanitize lev fetch app_name steam_app_id (some []) =
      { result := none, detail_calls := 0, lev_calls := 0 } := rfl

/-- Claim C1: if some candidate's normalized name equals the normalized input
title, search_best_match returns the first such candidate (in result-list
order, as computed by List.find?) with zero detail fetches and zero
edit-distance computations, for any supplied Steam app id. -/
theorem exact_match_short_circuit (sanitize : String → String)
    (lev : String → String → Nat) (fetch : Int → Option GameData)
    (app_name : String) (steam_app_id : Option Int) (data : List SearchItem)
    (it : SearchItem)
    (h : data.find?
        (fun x => normalize_name sanitize x.game_name ==
          normalize_name sanitize app_name) = some it) :
    search_best_match sanitize lev fetch app_name steam_app_id (some data) =
      { result := some it, detail_calls := 0, lev_calls := 0 } := by
  cases data with
  | nil => simp at h
  | cons a rest =>
    simp only [search_best_match, List.isEmpty_cons, if_neg Bool.false_ne_true, h]

/-- Witness for C1 at a concrete input: the second item matches the title
exactly after lowercasing, so it is returned with zero detail fetches. -/
theorem exact_match_short_circuit_witness :
    ([⟨1, "Dark Souls II", 300⟩, ⟨2, "Dark Souls", 500⟩] : List SearchItem).find?
        (fun x => normalize_name id x.game_name == normalize_name id "DARK SOULS") =
        some ⟨2, "Dark Souls", 500⟩ ∧
      search_best_match id (fun _ _ => 0) (fun _ => none) "DARK SOULS" (some 211420)
        (some [⟨1, "Dark Souls II", 300⟩, ⟨2, "Dark Souls", 500⟩]) =
        { result := some ⟨2, "Dark Souls", 500⟩, detail_calls := 0, lev_calls := 0 } :=
  ⟨by decide,
    exact_match_short_circuit id (fun _ _ => 0) (fun _ => none) "DARK SOULS"
      (some 211420) [⟨1, "Dark Souls II", 300⟩, ⟨2, "Dark Souls", 500⟩]
      ⟨2, "Dark Souls", 500⟩ (by decide)⟩

theorem rank_lt_iff (a b : Choice) :
    rank_lt a b = true ↔
      (a.distance < b.distance ∨
        (a.distance = b.distance ∧ b.comp_all_count < a.comp_all_count)) := by
  by_cases h : a.distance = b.distance
  · simp [rank_lt, h]
  · simp only [rank_lt, if_neg h, decide_eq_true_eq]
    omega

theorem rank_lt_false_iff (a b : Choice) :
    rank_lt a b = false ↔
      (b.distance < a.distance ∨
        (a.distance = b.distance ∧ a.comp_all_count ≤ b.comp_all_count)) := by
  rw [← Bool.not_eq_true, rank_lt_iff]
  omega

theorem rank_lt_irrefl (a : Choice) : rank_lt a a = false := by
  rw [rank_lt_false_iff]
  omega

theorem rank_lt_asymm {a b : Choice} (h : rank_lt a b = true) :
    rank_lt b a = false := by
  rw [rank_lt_iff] at h
  rw [rank_lt_false_iff]
  omega

theorem rank_lt_trans {a b c : Choice} (h1 : rank_lt a b = true)
    (h2 : rank_lt b c = true) : rank_lt a c = true := by
  rw [rank_lt_iff] at h1 h2 ⊢
  omega

theorem rank_lt_neg_trans {x b a : Choice} (h1 : rank_lt x b = false)
    (h2 : rank_lt b a = false) : rank_lt x a = false := by
  rw [rank_lt_false_iff] at h1 h2 ⊢
  omega

theorem mem_insert_ranked {x a : Choice} {l : List Choice} :
    x ∈ insert_ranked a l ↔ x = a ∨ x ∈ l := by
  induction l with
  | nil => simp [insert_ranked]
  | cons b rest ih =>
    simp only [insert_ranked]
    split
    · simp only [List.mem_cons, ih]
      tauto
    · simp [List.mem_cons]

theorem insert_ranked_pairwise {a : Choice} {l : List Choice}
    (h : l.Pairwise (fun x y => rank_lt y x = false)) :
    (insert_ranked a l).Pairwise (fun x y => rank_lt y x = false) := by
  induction l with
  | nil => simp [insert_ranked]
  | cons b rest ih =>
    rw [List.pairwise_cons] at h
    obtain ⟨hb, hrest⟩ := h
    simp only [insert_ranked]
    split
    · rename_i hba
      rw [List.pairwise_cons]
      refine ⟨?_, ih hrest⟩
      intro y hy
      rcases mem_insert_ranked.mp hy with rfl | hy2
      · exact rank_lt_asymm hba
      · exact hb y hy2
    · rename_i hba
      rw [Bool.not_eq_true] at hba
      rw [List.pairwise_cons]
      constructor
      · intro y hy
        rcases List.mem_cons.mp hy with rfl | hy2
        · exact hba
        · exact rank_lt_neg_trans (hb y hy2) hba
      · exact List.pairwise_cons.mpr ⟨hb, hrest⟩

theorem sort_choices_pairwise (l : List Choice) :
    (sort_choices l).Pairwise (fun x y => rank_lt y x = false) := by
  induction l with
  | nil => simp [sort_choices]
  | cons a rest ih => exact insert_ranked_pairwise ih

/-- Claim C2: the candidate ranking of resolveBestMatch is governed by the
comparator rank_lt, and for every pair of candidates a sorts before b iff
distance(a) < distance(b), or the distances are equal and popularity(a) >
popularity(b); the comparator is irreflexive, asymmetric and transitive,
any two candidates with distinct (distance, popularity) keys are comparable,
and the ranked candidate list is sorted by it (no later entry sorts before
an earlier one). -/
theorem ranking_total_order (sanitize : String → String)
    (lev : String → String → Nat) (app_name : String) (data : List SearchItem)
    (a b c : Choice) :
    (rank_lt a b = true ↔
      (a.distance < b.distance ∨
        (a.distance = b.distance ∧ a.comp_all_count > b.comp_all_count))) ∧
    rank_lt a a = false ∧
    (rank_lt a b = true → rank_lt b a = false) ∧
    (rank_lt a b = true → rank_lt b c = true → rank_lt a c = true) ∧
    (rank_lt a b = true ∨ rank_lt b a = true ∨
      (a.distance = b.distance ∧ a.comp_all_count = b.comp_all_count)) ∧
    (ranked_choices sanitize lev app_name data).Pairwise
      (fun x y => rank_lt y x = false) := by
  refine ⟨rank_lt_iff a b, rank_lt_irrefl a, fun h => rank_lt_asymm h,
    fun h1 h2 => rank_lt_trans h1 h2, ?_, sort_choices_pairwise _⟩
  by_cases hab : rank_lt a b = true
  · left; exact hab
  · by_cases hba : rank_lt b a = true
    · right; left; exact hba
    · rw [Bool.not_eq_true, rank_lt_false_iff] at hab hba
      right; right
      omega

/-- Witness for C2 at concrete candidates: the lower-distance candidate sorts
before the other, and (by the asymmetry conjunct) not conversely. -/
theorem ranking_total_order_witness :
    rank_lt ⟨1, 100, ⟨1, "a", 100⟩⟩ ⟨2, 400, ⟨2, "b", 400⟩⟩ = true ∧
      rank_lt ⟨2, 400, ⟨2, "b", 400⟩⟩ ⟨1, 100, ⟨1, "a", 100⟩⟩ = false :=
  ⟨by decide,
    (ranking_total_order id (fun _ _ => 0) "" [] ⟨1, 100, ⟨1, "a", 100⟩⟩
      ⟨2, 400, ⟨2, "b", 400⟩⟩ ⟨0, 0, ⟨0, "", 0⟩⟩).2.2.1 (by decide)⟩

theorem confirm_loop_calls_le (fetch : Int → Option GameData) (sid : Int)
    (l : List Choice) : (confirm_loop fetch sid l).2 ≤ l.length := by
  induction l with
  | nil => simp [confirm_loop]
  | cons c rest ih =>
    simp only [confirm_loop]
    cases hf : fetch c.item.game_id with
    | none =>
      simp only [List.length_cons]
      omega
    | some gd =>
      by_cases hps : gd.profile_steam = sid
      all_goals simp [hps, List.length_cons]
      all_goals omega

theorem confirm_loop_all_miss (fetch : Int → Option GameData) (sid : Int)
    (l : List Choice) (h : ∀ c ∈ l, confirms fetch sid c = false) :
    confirm_loop fetch sid l = (none, l.length) := by
  induction l with
  | nil => simp [confirm_loop]
  | cons c rest ih =>
    have hc := h c (List.mem_cons_self c rest)
    have hrest := ih (fun x hx => h x (List.mem_cons_of_mem c hx))
    simp only [confirms] at hc
    simp only [confirm_loop]
    cases hf : fetch c.item.game_id with
    | none => simp [hrest]
    | some gd =>
      rw [hf] at hc
      simp at hc
      simp [hc, hrest]

theorem confirm_loop_first_hit (fetch : Int → Option GameData) (sid : Int)
    (l : List Choice) (i : Nat) (hi : i < l.length)
    (hhit : confirms fetch sid (l.get ⟨i, hi⟩) = true)
    (hmiss : ∀ j, ∀ hj : j < i,
      confirms fetch sid (l.get ⟨j, Nat.lt_trans hj hi⟩) = false) :
    confirm_loop fetch sid l = (some ((l.get ⟨i, hi⟩).item), i + 1) := by
  induction l generalizing i with
  | nil => simp at hi
  | cons c rest ih =>
    cases i with
    | zero =>
      have hc : confirms fetch sid c = true := hhit
      simp only [confirms] at hc
      simp only [confirm_loop]
      cases hf : fetch c.item.game_id with
      | none =>
        rw [hf] at hc
        simp at hc
      | some gd =>
        rw [hf] at hc
        simp at hc
        simp [hc]
    | succ j =>
      have hc0 : confirms fetch sid c = false := hmiss 0 (Nat.succ_pos j)
      have hj : j < rest.length := Nat.lt_of_succ_lt_succ hi
      have hhit2 : confirms fetch sid (rest.get ⟨j, hj⟩) = true := hhit
      have hmiss2 : ∀ k, ∀ hk : k < j,
          confirms fetch sid (rest.get ⟨k, Nat.lt_trans hk hj⟩) = false :=
        fun k hk => hmiss (k + 1) (Nat.succ_lt_succ hk)
      have hrest := ih j hj hhit2 hmiss2
      simp only [confirms] at hc0
      simp only [confirm_loop]
      cases hf : fetch c.item.game_id with
      | none => simp [hrest]
      | some gd =>
        rw [hf] at hc0
        simp at hc0
        simp [hc0, hrest]

theorem steam_confirm_result_calls (fetch : Int → Option GameData) (sid : Int)
    (ranked : List Choice) (n : Nat) :
    (steam_confirm_result fetch sid ranked n).detail_calls =
      (confirm_loop fetch sid (ranked.take max_steam_id_checks)).2 := by
  unfold steam_confirm_result
  rcases hcl : confirm_loop fetch sid (ranked.take max_steam_id_checks) with ⟨o, calls⟩
  cases o <;> simp

theorem search_best_match_no_exact (sanitize : String → String)
    (lev : String → String → Nat) (fetch : Int → Option GameData)
    (app_name : String) (sid : Int) (data : List SearchItem)
    (hne : data ≠ [])
    (hnoexact : ∀ x ∈ data,
      (normalize_name sanitize x.game_name ==
        normalize_name sanitize app_name) = false) :
    search_best_match sanitize lev fetch app_name (some sid) (some data) =
      steam_confirm_result fetch sid
        (ranked_choices sanitize lev app_name data) data.length := by
  have hfind : data.find? (fun it =>
      normalize_name sanitize it.game_name ==
        normalize_name sanitize app_name) = none := by
    rw [List.find?_eq_none]
    intro x hx
    simp [hnoexact x hx]
  cases data with
  | nil => exact absurd rfl hne
  | cons a rest =>
    simp only [search_best_match, List.isEmpty_cons, Bool.false_eq_true,
      if_false, hfind]

/-- Claim C3: with a Steam app id supplied and no exact name match,
search_best_match performs at most max_steam_id_checks = 3 detail fetches; it
visits the ranked candidates in order, and if the i-th of the top three is
the first whose fetched record carries the supplied Steam id (earlier
candidates failing to fetch or to match being skipped non-fatally), exactly
i + 1 fetches occur and that candidate is returned; if none of the top three
confirms, exactly min 3 (number of candidates) fetches occur. -/
theorem confirmation_bounded (sanitize : String → String)
    (lev : String → String → Nat) (fetch : Int → Option GameData)
    (app_name : String) (sid : Int) (data : List SearchItem)
    (hne : data ≠ [])
    (hnoexact : ∀ x ∈ data,
      (normalize_name sanitize x.game_name ==
        normalize_name sanitize app_name) = false) :
    (search_best_match sanitize lev fetch app_name (some sid)
        (some data)).detail_calls ≤ max_steam_id_checks ∧
    (∀ i, ∀ hi : i < ((ranked_choices sanitize lev app_name data).take
        max_steam_id_checks).length,
      confirms fetch sid (((ranked_choices sanitize lev app_name data).take
        max_steam_id_checks).get ⟨i, hi⟩) = true →
      (∀ j, ∀ hj : j < i,
        confirms fetch sid (((ranked_choices sanitize lev app_name data).take
          max_steam_id_checks).get ⟨j, Nat.lt_trans hj hi⟩) = false) →
      (search_best_match sanitize lev fetch app_name (some sid)
          (some data)).result =
        some ((((ranked_choices sanitize lev app_name data).take
          max_steam_id_checks).get ⟨i, hi⟩).item) ∧
      (search_best_match sanitize lev fetch app_name (some sid)
          (some data)).detail_calls = i + 1) ∧
    ((∀ c ∈ (ranked_choices sanitize lev app_name data).take max_steam_id_checks,
        confirms fetch sid c = false) →
      (search_best_match sanitize lev fetch app_name (some sid)
          (some data)).detail_calls =
        min max_steam_id_checks (ranked_choices sanitize lev app_name data).length) := by
  rw [search_best_match_no_exact sanitize lev fetch app_name sid data hne hnoexact]
  refine ⟨?_, ?_, ?_⟩
  · rw [steam_confirm_result_calls]
    calc (confirm_loop fetch sid ((ranked_choices sanitize lev app_name
            data).take max_steam_id_checks)).2
        ≤ ((ranked_choices sanitize lev app_name data).take
            max_steam_id_checks).length := confirm_loop_calls_le _ _ _
      _ ≤ max_steam_id_checks := by
            rw [List.length_take]
            exact Nat.min_le_left _ _
  · intro i hi hhit hmiss
    have hcl := confirm_loop_first_hit fetch sid _ i hi hhit hmiss
    unfold steam_confirm_result
    rw [hcl]
    exact ⟨rfl, rfl⟩
  · intro hall
    have hcl := confirm_loop_all_miss fetch sid _ hall
    unfold steam_confirm_result
    rw [hcl]
    simp [List.length_take]

/-- Witness for C3 at a concrete input: two candidates, no exact match for
the title, a Steam id supplied; the bound of three detail fetches holds. -/
theorem confirmation_bounded_witness :
    (([⟨10, "bb", 5⟩, ⟨11, "c", 7⟩] : List SearchItem) ≠ []) ∧
    (∀ x ∈ ([⟨10, "bb", 5⟩, ⟨11, "c", 7⟩] : List SearchItem),
      (normalize_name id x.game_name == normalize_name id "x") = false) ∧
    (search_best_match id (fun _ s => s.length)
        (fun g => if g = 10 then some ⟨42⟩ else none) "x" (some 42)
        (some [⟨10, "bb", 5⟩, ⟨11, "c", 7⟩])).detail_calls ≤
      max_steam_id_checks :=
  ⟨by decide, by decide,
    (confirmation_bounded id (fun _ s => s.length)
      (fun g => if g = 10 then some ⟨42⟩ else none) "x" 42
      [⟨10, "bb", 5⟩, ⟨11, "c", 7⟩] (by decide) (by decide)).1⟩

/-- The token-related module state of hltb.lua: cached_token (line 34) and
token_expires_at (line 38, initially 0). -/
structure TokenState where
  cached_token : Option String
  token_expires_at : Int
deriving DecidableEq, Repr

/-- TOKEN_TTL (hltb.lua line 28), in seconds. -/
def TOKEN_TTL : Int := 300

/-- What the network would answer to one GET of api/search/init: no response
at all (transport failure, with the optional error string), or a response
with a status code and a decode outcome (none: body is not valid JSON;
some none: JSON without a token field; some (some t): token t). -/
inductive TokenNet where
  | noResponse (err : Option String)
  | resp (status : Int) (decoded : Option (Option String))

/-- The fetch path of M.get_auth_token (hltb.lua lines 296-332): one GET of
the init endpoint, then status / JSON / token-field checks, each failing with
the explicit error message of the source; on success the token is cached with
expiry now + TOKEN_TTL.  The third component counts token-fetch network
calls. -/
def fetch_token (now : Int) (st : TokenState) (net : TokenNet) :
    Except String String × TokenState × Nat :=
  match net with
  | .noResponse err =>
    (Except.error ("Request failed: " ++ err.getD "unknown"), st, 1)
  | .resp status decoded =>
    if status ≠ 200 then (Except.error ("HTTP " ++ toString status), st, 1)
    else
      match decoded with
      | none => (Except.error "Invalid JSON response", st, 1)
      | some none => (Except.error "No token in response", st, 1)
      | some (some t) =>
        (Except.ok t,
          { cached_token := some t, token_expires_at := now + TOKEN_TTL }, 1)

/-- M.get_auth_token (hltb.lua lines 289-333): return the cached token
without any network call when force_refresh is off, a token is cached and
now is strictly before its expiry; otherwise fetch a fresh one. -/
def get_auth_token (force_refresh : Bool) (now : Int) (st : TokenState)
    (net : TokenNet) : Except String String × TokenState × Nat :=
  match st.cached_token with
  | some t =>
    if force_refresh = false ∧ now < st.token_expires_at then
      (Except.ok t, st, 0)
    else fetch_token now st net
  | none => fetch_token now st net

theorem fetch_token_one_call (now : Int) (st : TokenState) (net : TokenNet) :
    (fetch_token now st net).2.2 = 1 := by
  unfold fetch_token
  cases net with
  | noResponse err => rfl
  | resp status decoded =>
    by_cases hs : status ≠ 200
    · simp [hs]
    · rcases decoded with _ | (_ | t) <;> simp [hs]

theorem fetch_token_ok_state (now : Int) (st : TokenState) (net : TokenNet)
    (t : String) (h : (fetch_token now st net).1 = Except.ok t) :
    (fetch_token now st net).2.1 =
      { cached_token := some t, token_expires_at := now + TOKEN_TTL } := by
  unfold fetch_token at h ⊢
  cases net with
  | noResponse err => simp at h
  | resp status decoded =>
    by_cases hs : status ≠ 200
    · simp [hs] at h
    · rcases decoded with _ | (_ | tok)
      · simp [hs] at h
      · simp [hs] at h
      · simp [hs] at h
        subst h
        simp [hs]

/-- Claim C5: with force_refresh off and a cached token whose TTL has not
elapsed, get_auth_token returns the cached token with zero token-fetch
network calls; with force_refresh on, or once the expiry instant has been
reached, it performs exactly one token-fetch network call, and a successful
fetch sets the new expiry to now + TOKEN_TTL (a fixed 300 seconds from
issuance). -/
theorem token_cache_behavior (force_refresh : Bool) (now : Int)
    (st : TokenState) (net : TokenNet) :
    (∀ t, force_refresh = false → st.cached_token = some t →
      now < st.token_expires_at →
      get_auth_token force_refresh now st net = (Except.ok t, st, 0)) ∧
    ((force_refresh = true ∨ st.token_expires_at ≤ now) →
      (get_auth_token force_refresh now st net).2.2 = 1) ∧
    (∀ t, (get_auth_token force_refresh now st net).2.2 = 1 →
      (get_auth_token force_refresh now st net).1 = Except.ok t →
      (get_auth_token force_refresh now st net).2.1 =
        { cached_token := some t, token_expires_at := now + TOKEN_TTL }) := by
  refine ⟨?_, ?_, ?_⟩
  · intro t hf hc hlt
    simp [get_auth_token, hc, hf, hlt]
  · intro h
    unfold get_auth_token
    cases hc : st.cached_token with
    | none => exact fetch_token_one_call now st net
    | some t =>
      have hcond : ¬(force_refresh = false ∧ now < st.token_expires_at) := by
        rcases h with h | h
        · simp [h]
        · intro hx
          omega
      simp only [hcond, if_false]
      exact fetch_token_one_call now st net
  · intro t h1 h2
    unfold get_auth_token at h1 h2 ⊢
    cases hc : st.cached_token with
    | none =>
      rw [hc] at h2
      exact fetch_token_ok_state now st net t h2
    | some t0 =>
      rw [hc] at h1 h2
      by_cases hcond : force_refresh = false ∧ now < st.token_expires_at
      · simp [hcond] at h1
      · simp [hcond] at h2 ⊢
        exact fetch_token_ok_state now st net t h2

/-- Witness for C5 at a concrete state: a cached token with expiry 1000 at
time 500 is returned unchanged with zero token-fetch calls. -/
theorem token_cache_behavior_witness :
    ((false : Bool) = false) ∧
    (⟨some "tok", 1000⟩ : TokenState).cached_token = some "tok" ∧
    (500 : Int) < (⟨some "tok", 1000⟩ : TokenState).token_expires_at ∧
    get_auth_token false 500 ⟨some "tok", 1000⟩ (.noResponse none) =
      (Except.ok "tok", ⟨some "tok", 1000⟩, 0) :=
  ⟨rfl, rfl, by decide,
    (token_cache_behavior false 500 ⟨some "tok", 1000⟩ (.noResponse none)).1
      "tok" rfl rfl (by decide)⟩

/-- Claim C6: whenever get_auth_token returns a token rather than an explicit
error, the current time is strictly before the expiry instant recorded for
that token in the resulting state: a token is never handed out at or past its
expiry. -/
theorem token_never_expired (force_refresh : Bool) (now : Int)
    (st : TokenState) (net : TokenNet) (t : String)
    (h : (get_auth_token force_refresh now st net).1 = Except.ok t) :
    now < (get_auth_token force_refresh now st net).2.1.token_expires_at := by
  unfold get_auth_token at h ⊢
  cases hc : st.cached_token with
  | none =>
    rw [hc] at h
    have hst := fetch_token_ok_state now st net t h
    show now < (fetch_token now st net).2.1.token_expires_at
    rw [hst]
    show now < now + TOKEN_TTL
    unfold TOKEN_TTL
    omega
  | some t0 =>
    rw [hc] at h
    by_cases hcond : force_refresh = false ∧ now < st.token_expires_at
    · simp [hcond]
    · simp [hcond] at h ⊢
      have hst := fetch_token_ok_state now st net t h
      rw [hst]
      show now < now + TOKEN_TTL
      unfold TOKEN_TTL
      omega

/-- Witness for C6: a fresh fetch at time 100 yields a token whose recorded
expiry (100 + 300) lies strictly in the future. -/
theorem token_never_expired_witness :
    (get_auth_token true 100 ⟨none, 0⟩ (.resp 200 (some (some "tok")))).1 =
      Except.ok "tok" ∧
    (100 : Int) <
      (get_auth_token true 100 ⟨none, 0⟩
        (.resp 200 (some (some "tok")))).2.1.token_expires_at :=
  ⟨rfl, token_never_expired true 100 ⟨none, 0⟩ (.resp 200 (some (some "tok"))) "tok" rfl⟩

/-- A raw element of data.data in a decoded search response, holding the
three fields M.search validates (hltb.lua lines 471-484). -/
structure RawSearchItem where
  game_id : LuaVal
  game_name : LuaVal
  comp_all_count : LuaVal
deriving DecidableEq, Repr

/-- The per-item field validation of M.search (hltb.lua lines 471-484):
game_id of Lua type number, game_name of Lua type string, comp_all_count of
Lua type number. -/
def item_fields_valid (it : RawSearchItem) : Bool :=
  it.game_id.isNum && it.game_name.isStr && it.comp_all_count.isNum

/-- The validation loop of M.search over all elements of data.data: the
source returns nil at the first offending item, so the response is accepted
exactly when every item passes. -/
def validate_search_items (items : List RawSearchItem) : Bool :=
  items.all item_fields_valid

/-- The response-processing tail of M.search (hltb.lua lines 447-487) from
the decoded body on: none models every earlier failure (transport, non-200,
undecodable JSON, data.data not a table); some items models data.data.  The
whole response is rejected if any item fails validation, else returned
intact. -/
def search_validate (decoded : Option (List RawSearchItem)) :
    Option (List RawSearchItem) :=
  match decoded with
  | none => none
  | some items => if validate_search_items items then some items else none

/-- Formalization of the words of the spec sentence behind C7: the element
has the catalog id as an integer, the display name as a string, and the
popularity count as an integer (integrality of the numeric payload, not just
Lua type number). -/
def item_fields_integer (it : RawSearchItem) : Bool :=
  (match it.game_id with | .num q => q.den == 1 | _ => false) &&
  it.game_name.isStr &&
  (match it.comp_all_count with | .num q => q.den == 1 | _ => false)

/-- Counterexample to C7 as stated: a response whose single element carries
the non-integer number 3/2 as its catalog id lacks an integer catalog id,
yet M.search accepts the response (its type check is Lua type number, not
integrality). -/
theorem search_integer_validation_counterexample :
    item_fields_integer ⟨.num (mkRat 3 2), .str "x", .num 1⟩ = false ∧
    search_validate (some [⟨.num (mkRat 3 2), .str "x", .num 1⟩]) =
      some [⟨.num (mkRat 3 2), .str "x", .num 1⟩] := by
  constructor
  · decide
  · decide

/-- Claim C7 (amended: integer replaced by Lua-number-typed): if any element
of the result array lacks a number-typed catalog id, a string display name,
or a number-typed popularity count, M.search rejects the entire response (no
per-item filtering); if every element passes, the whole list is returned;
an empty result array is a valid, non-error outcome. -/
theorem search_fail_closed (items : List RawSearchItem) :
    ((∃ it ∈ items, item_fields_valid it = false) →
      search_validate (some items) = none) ∧
    ((∀ it ∈ items, item_fields_valid it = true) →
      search_validate (some items) = some items) ∧
    search_validate (some []) = some [] := by
  refine ⟨?_, ?_, rfl⟩
  · rintro ⟨it, hmem, hbad⟩
    have hv : ¬validate_search_items items = true := by
      intro hv
      rw [validate_search_items, List.all_eq_true] at hv
      have := hv it hmem
      rw [hbad] at this
      exact Bool.false_ne_true this
    show (if validate_search_items items = true then some items else none) = none
    rw [if_neg hv]
  · intro hall
    have hv : validate_search_items items = true := by
      rw [validate_search_items, List.all_eq_true]
      exact hall
    show (if validate_search_items items = true then some items else none) =
      some items
    rw [if_pos hv]

/-- Witness for C7: a single element whose catalog id is not a number at all
makes the whole response rejected. -/
theorem search_fail_closed_witness :
    (∃ it ∈ [(⟨.other, .str "x", .num 1⟩ : RawSearchItem)],
      item_fields_valid it = false) ∧
    search_validate (some [(⟨.other, .str "x", .num 1⟩ : RawSearchItem)]) = none :=
  ⟨⟨⟨.other, .str "x", .num 1⟩, by decide, by decide⟩,
    (search_fail_closed [⟨.other, .str "x", .num 1⟩]).1
      ⟨⟨.other, .str "x", .num 1⟩, by decide, by decide⟩⟩

/-- A raw element of the nested pageProps.game.data.game array in a decoded
game-page response, holding the seven fields fetch_game_data validates
(hltb.lua lines 251-259). -/
structure RawGame where
  comp_main : LuaVal
  comp_plus : LuaVal
  comp_100 : LuaVal
  comp_all : LuaVal
  game_id : LuaVal
  profile_steam : LuaVal
  game_name : LuaVal
deriving DecidableEq, Repr

/-- The validate_fields call of fetch_game_data (hltb.lua lines 251-259):
the seven required fields in schema order, the four durations, game_id and
profile_steam as Lua numbers and game_name as a Lua string. -/
def game_fields_valid (g : RawGame) : Bool :=
  g.comp_main.isNum && g.comp_plus.isNum && g.comp_100.isNum &&
  g.comp_all.isNum && g.game_id.isNum && g.profile_steam.isNum &&
  g.game_name.isStr

/-- fetch_game_data (hltb.lua lines 185-266).  build_id is the result of
extract_build_id (none = NotFound).  respond models the one GET of the
game-page URL for a given build id and game id: none covers transport
failure, non-200 status, undecodable JSON and the pageProps / game / data /
game wrapper checks failing; some arr is the nested game array.  The second
component counts game-data GET requests issued. -/
def fetch_game_data (build_id : Option String)
    (respond : String → Int → Option (List RawGame)) (game_id : Int) :
    Option RawGame × Nat :=
  match build_id with
  | none => (none, 0)
  | some b =>
    match respond b game_id with
    | none => (none, 1)
    | some arr =>
      match arr with
      | [g] => if game_fields_valid g then (some g, 1) else (none, 1)
      | _ => (none, 1)

theorem fetch_game_data_some (b : String)
    (respond : String → Int → Option (List RawGame)) (game_id : Int) :
    fetch_game_data (some b) respond game_id =
      match respond b game_id with
      | none => (none, 1)
      | some arr =>
        match arr with
        | [g] => if game_fields_valid g then (some g, 1) else (none, 1)
        | _ => (none, 1) := rfl

/-- Claim C8: with build-id discovery returning NotFound, fetch_game_data
fails with zero game-data requests; with a build id it issues exactly one
request; a nested game array of length other than one fails the call; for a
single-element array the call succeeds iff all seven required fields have
exactly the expected type. -/
theorem fetch_game_data_spec (respond : String → Int → Option (List RawGame))
    (build_id : Option String) (game_id : Int) :
    (build_id = none → fetch_game_data build_id respond game_id = (none, 0)) ∧
    (∀ b, build_id = some b →
      (fetch_game_data build_id respond game_id).2 = 1) ∧
    (∀ b arr, build_id = some b → respond b game_id = some arr →
      arr.length ≠ 1 → fetch_game_data build_id respond game_id = (none, 1)) ∧
    (∀ b g, build_id = some b → respond b game_id = some [g] →
      fetch_game_data build_id respond game_id =
        (if game_fields_valid g then (some g, 1) else (none, 1))) := by
  refine ⟨?_, ?_, ?_, ?_⟩
  · rintro rfl
    rfl
  · rintro b rfl
    rw [fetch_game_data_some]
    cases hr : respond b game_id with
    | none => rfl
    | some arr =>
      rcases arr with _ | ⟨a, _ | ⟨b2, t⟩⟩
      · rfl
      · show (if game_fields_valid a = true then (some a, 1) else
          ((none : Option RawGame), 1)).2 = 1
        split
        · rfl
        · rfl
      · rfl
  · rintro b arr rfl hresp hlen
    rw [fetch_game_data_some, hresp]
    rcases arr with _ | ⟨a, _ | ⟨b2, t⟩⟩
    · rfl
    · exact absurd rfl hlen
    · rfl
  · rintro b g rfl hresp
    rw [fetch_game_data_some, hresp]

/-- Witness for C8: NotFound build id gives an immediate failure with zero
requests, and a malformed single-element array (string where a number is
required) fails a fetched call. -/
theorem fetch_game_data_spec_witness :
    ((none : Option String) = none) ∧
    fetch_game_data none (fun _ _ => none) 7 = (none, 0) ∧
    fetch_game_data (some "b")
      (fun _ _ => some [⟨.str "bad", .num 1, .num 1, .num 1, .num 1, .num 1,
        .str "g"⟩]) 7 = (none, 1) :=
  ⟨rfl, (fetch_game_data_spec (fun _ _ => none) none 7).1 rfl, by decide⟩

/-- BASE_URL (hltb.lua line 25). -/
def BASE_URL : String := "https://howlongtobeat.com/"

/-- Static fallback search URL M.SEARCH_URL (hltb.lua line 31). -/
def SEARCH_URL : String := BASE_URL ++ "api/search"

/-- SKIP_ENDPOINTS (hltb.lua lines 44-49), as the list of endpoint names. -/
def SKIP_ENDPOINTS : List String := ["find", "error", "user", "logout"]

/-- The full module-level cache of hltb.lua (lines 34-38). -/
structure Cache where
  cached_token : Option String
  cached_search_url : Option String
  cached_build_id : Option String
  cached_homepage : Option String
  token_expires_at : Int
deriving DecidableEq, Repr

/-- M.clear_cache (hltb.lua lines 561-567): reset every cached value. -/
def clear_cache (_ : Cache) : Cache :=
  { cached_token := none, cached_search_url := none, cached_build_id := none,
    cached_homepage := none, token_expires_at := 0 }

/-- What the network and the Lua string library would answer during endpoint
discovery.  homepage_response: body of GET BASE_URL when it returns 200,
none otherwise.  fetchScript src: body of the GET of a chunk script path
when it returns 200 with a body, none otherwise (the URL built from src at
hltb.lua line 115 is determined by src).  scriptUrls hp: the matches of the
chunk-script gmatch pattern (line 106) over the homepage body, in order.
apiCandidates content: the endpoint-name captures of the /api/ literal
gmatch pattern (lines 127-128) over a bundle body, in order.  hasPostFetch
content e: whether the POST-proximity find pattern (line 137) for /api/e
matches the same bundle body. -/
structure DiscoveryEnv where
  homepage_response : Option String
  fetchScript : String → Option String
  scriptUrls : String → List String
  apiCandidates : String → List String
  hasPostFetch : String → String → Bool

/-- get_homepage (hltb.lua lines 63-87): cached homepage is reused with no
fetch; a failed fetch is not cached.  The last component counts discovery
GET requests. -/
def get_homepage (env : DiscoveryEnv) (c : Cache) :
    Option String × Cache × Nat :=
  match c.cached_homepage with
  | some hp => (some hp, c, 0)
  | none =>
    match env.homepage_response with
    | none => (none, c, 1)
    | some body => (some body, { c with cached_homepage := some body }, 1)

/-- The inner candidate loop of extract_search_url (hltb.lua lines 127-146)
over one bundle body: walk the /api/ literals in order, skipping endpoints
already seen in this or an earlier bundle (endpoints_found) and the fixed
skip-list, and accept the first candidate whose POST-usage check succeeds in
this same bundle body.  Returns the accepted relative URL (if any) and the
updated seen-endpoints set. -/
def scan_bundle (hasPost : String → String → Bool) (content : String) :
    List String → List String → Option String × List String
  | [], found => (none, found)
  | e :: rest, found =>
    if found.contains e then scan_bundle hasPost content rest found
    else
      if SKIP_ENDPOINTS.contains e then
        scan_bundle hasPost content rest (e :: found)
      else if hasPost content e then (some ("api/" ++ e), e :: found)
      else scan_bundle hasPost content rest (e :: found)

/-- The outer bundle loop of extract_search_url (hltb.lua lines 113-148):
fetch each chunk script in order (a failed fetch is non-fatal and counts as
one attempt), scan its body, and stop at the first verified endpoint.  The
second component counts bundle GET attempts. -/
def scan_bundles (env : DiscoveryEnv) :
    List String → List String → Option String × Nat
  | [], _ => (none, 0)
  | src :: rest, found =>
    match env.fetchScript src with
    | none =>
      ((scan_bundles env rest found).1, (scan_bundles env rest found).2 + 1)
    | some content =>
      match scan_bundle env.hasPostFetch content
          (env.apiCandidates content) found with
      | (some url, _) => (some url, 1)
      | (none, found2) =>
        ((scan_bundles env rest found2).1,
          (scan_bundles env rest found2).2 + 1)

/-- extract_search_url (hltb.lua lines 91-152): fetch (or reuse) the
homepage, then scan the referenced chunk bundles; none when the homepage is
unavailable or no bundle yields a verified endpoint.  The last component
counts discovery GET requests (homepage plus bundle attempts). -/
def extract_search_url (env : DiscoveryEnv) (c : Cache) :
    Option String × Cache × Nat :=
  match get_homepage env c with
  | (none, c2, n) => (none, c2, n)
  | (some hp, c2, n) =>
    match scan_bundles env (env.scriptUrls hp) [] with
    | (res, m) => (res, c2, n + m)

/-- get_search_url (hltb.lua lines 269-286): reuse the cached URL with zero
discovery requests, otherwise run extraction and cache either the discovered
URL or the static fallback. -/
def get_search_url (env : DiscoveryEnv) (c : Cache) : String × Cache × Nat :=
  match c.cached_search_url with
  | some u => (u, c, 0)
  | none =>
    match extract_search_url env c with
    | (some u, c2, n) =>
      (BASE_URL ++ u, { c2 with cached_search_url := some (BASE_URL ++ u) }, n)
    | (none, c2, n) =>
      (SEARCH_URL, { c2 with cached_search_url := some SEARCH_URL }, n)

theorem scan_bundle_some (hasPost : String → String → Bool) (content : String)
    (cands : List String) (found found2 : List String) (url : String)
    (h : scan_bundle hasPost content cands found = (some url, found2)) :
    ∃ e, e ∈ cands ∧ SKIP_ENDPOINTS.contains e = false ∧
      hasPost content e = true ∧ url = "api/" ++ e := by
  induction cands generalizing found with
  | nil => simp [scan_bundle] at h
  | cons e rest ih =>
    simp only [scan_bundle] at h
    by_cases h1 : found.contains e = true
    · rw [if_pos h1] at h
      obtain ⟨e2, hmem, hrest⟩ := ih found h
      exact ⟨e2, List.mem_cons_of_mem _ hmem, hrest⟩
    · rw [if_neg h1] at h
      by_cases h2 : SKIP_ENDPOINTS.contains e = true
      · rw [if_pos h2] at h
        obtain ⟨e2, hmem, hrest⟩ := ih (e :: found) h
        exact ⟨e2, List.mem_cons_of_mem _ hmem, hrest⟩
      · rw [if_neg h2] at h
        by_cases h3 : hasPost content e = true
        · rw [if_pos h3] at h
          injection h with hu hf
          injection hu with hu
          exact ⟨e, List.mem_cons_self e rest, Bool.not_eq_true _ ▸ by
            simpa using h2, h3, hu.symm⟩
        · rw [if_neg h3] at h
          obtain ⟨e2, hmem, hrest⟩ := ih (e :: found) h
          exact ⟨e2, List.mem_cons_of_mem _ hmem, hrest⟩

theorem scan_bundles_some (env : DiscoveryEnv) (url : String)
    (srcs : List String) (found : List String) (n : Nat)
    (h : scan_bundles env srcs found = (some url, n)) :
    ∃ i, ∃ hi : i < srcs.length, ∃ content,
      env.fetchScript (srcs.get ⟨i, hi⟩) = some content ∧
      (∃ e, e ∈ env.apiCandidates content ∧
        SKIP_ENDPOINTS.contains e = false ∧
        env.hasPostFetch content e = true ∧ url = "api/" ++ e) ∧
      n = i + 1 := by
  induction srcs generalizing found n with
  | nil => simp [scan_bundles] at h
  | cons src rest ih =>
    simp only [scan_bundles] at h
    cases hf : env.fetchScript src with
    | none =>
      rw [hf] at h
      rcases hr : scan_bundles env rest found with ⟨o, m⟩
      rw [hr] at h
      injection h with h1 h2
      subst h1
      obtain ⟨i, hi, content, hc, hex, hn⟩ := ih found m hr
      exact ⟨i + 1, Nat.succ_lt_succ hi, content, hc, hex, by omega⟩
    | some content =>
      rw [hf] at h
      have h : (match scan_bundle env.hasPostFetch content
          (env.apiCandidates content) found with
        | (some u, _) => (some u, 1)
        | (none, found2) =>
          ((scan_bundles env rest found2).1,
            (scan_bundles env rest found2).2 + 1)) = (some url, n) := h
      rcases hs : scan_bundle env.hasPostFetch content
          (env.apiCandidates content) found with ⟨o, found2⟩
      rw [hs] at h
      cases o with
      | some u2 =>
        have h : ((some u2 : Option String), (1 : Nat)) = (some url, n) := h
        injection h with h1 h2
        injection h1 with h1
        subst h1
        obtain ⟨e, he⟩ := scan_bundle_some env.hasPostFetch content
          (env.apiCandidates content) found found2 u2 hs
        exact ⟨0, Nat.succ_pos rest.length, content, hf, ⟨e, he⟩, by omega⟩
      | none =>
        have h : ((scan_bundles env rest found2).1,
            (scan_bundles env rest found2).2 + 1) = (some url, n) := h
        rcases hr : scan_bundles env rest found2 with ⟨o2, m⟩
        rw [hr] at h
        injection h with h1 h2
        subst h1
        obtain ⟨i, hi, content2, hc, hex, hn⟩ := ih found2 m hr
        exact ⟨i + 1, Nat.succ_lt_succ hi, content2, hc, hex, by omega⟩

theorem get_search_url_cached (env : DiscoveryEnv) (c : Cache) (u : String)
    (h : c.cached_search_url = some u) : get_search_url env c = (u, c, 0) := by
  unfold get_search_url
  rw [h]

theorem get_search_url_uncached (env : DiscoveryEnv) (c : Cache)
    (h : c.cached_search_url = none) :
    get_search_url env c =
      match extract_search_url env c with
      | (some u, c2, n) =>
        (BASE_URL ++ u, { c2 with cached_search_url := some (BASE_URL ++ u) }, n)
      | (none, c2, n) =>
        (SEARCH_URL, { c2 with cached_search_url := some SEARCH_URL }, n) := by
  unfold get_search_url
  rw [h]

/-- Claim C4: endpoint discovery yields none when no homepage is available;
a failed bundle fetch is non-fatal (the scan result is that of the remaining
bundles); when the cache is empty and extraction yields nothing,
get_search_url returns the static fallback; and whenever extraction yields a
URL, some bundle of the homepage's script list was fetched, one of that same
bundle's /api/ candidates outside the skip-list passed the POST-usage check
against that bundle's own body, the URL is built from that endpoint, and the
scan performed exactly index + 1 bundle fetch attempts, so no bundle after
the first verified match is scanned. -/
theorem endpoint_discovery_spec (env : DiscoveryEnv) (c : Cache) :
    (c.cached_homepage = none → env.homepage_response = none →
      (extract_search_url env c).1 = none) ∧
    (∀ src rest found, env.fetchScript src = none →
      (scan_bundles env (src :: rest) found).1 =
        (scan_bundles env rest found).1) ∧
    (c.cached_search_url = none → (extract_search_url env c).1 = none →
      (get_search_url env c).1 = SEARCH_URL) ∧
    (∀ url, (extract_search_url env c).1 = some url →
      ∃ hp, (get_homepage env c).1 = some hp ∧
      ∃ i, ∃ hi : i < (env.scriptUrls hp).length, ∃ content,
        env.fetchScript ((env.scriptUrls hp).get ⟨i, hi⟩) = some content ∧
        (∃ e, e ∈ env.apiCandidates content ∧
          SKIP_ENDPOINTS.contains e = false ∧
          env.hasPostFetch content e = true ∧ url = "api/" ++ e) ∧
        scan_bundles env (env.scriptUrls hp) [] = (some url, i + 1)) := by
  refine ⟨?_, ?_, ?_, ?_⟩
  · intro h1 h2
    have hh : get_homepage env c = (none, c, 1) := by
      unfold get_homepage
      rw [h1, h2]
    unfold extract_search_url
    rw [hh]
  · intro src rest found h
    simp only [scan_bundles]
    rw [h]
  · intro h1 h2
    rw [get_search_url_uncached env c h1]
    rcases he : extract_search_url env c with ⟨o, c2, n⟩
    rw [he] at h2
    have h2 : o = none := h2
    subst h2
    rfl
  · intro url h
    rcases hg : get_homepage env c with ⟨ohp, c2, n0⟩
    unfold extract_search_url at h
    rw [hg] at h
    cases ohp with
    | none => exact Option.noConfusion h
    | some hp =>
      have h : (scan_bundles env (env.scriptUrls hp) []).1 = some url := h
      rcases hs : scan_bundles env (env.scriptUrls hp) [] with ⟨o, m⟩
      rw [hs] at h
      have h : o = some url := h
      subst h
      obtain ⟨i, hi, content, hc, hex, hn⟩ :=
        scan_bundles_some env url (env.scriptUrls hp) [] m hs
      subst hn
      exact ⟨hp, rfl, i, hi, content, hc, hex, hs⟩

/-- Witness for C4: with no cached homepage and a failing homepage fetch,
extraction yields none. -/
theorem endpoint_discovery_spec_witness :
    ((⟨none, none, none, none, 0⟩ : Cache).cached_homepage = none) ∧
    ((⟨none, fun _ => none, fun _ => [], fun _ => [], fun _ _ => false⟩ :
      DiscoveryEnv).homepage_response = none) ∧
    (extract_search_url
      ⟨none, fun _ => none, fun _ => [], fun _ => [], fun _ _ => false⟩
      ⟨none, none, none, none, 0⟩).1 = none :=
  ⟨rfl, rfl,
    (endpoint_discovery_spec
      ⟨none, fun _ => none, fun _ => [], fun _ => [], fun _ _ => false⟩
      ⟨none, none, none, none, 0⟩).1 rfl rfl⟩

/-- Claim C10: a cached search URL is returned as-is with zero discovery
requests; after any get_search_url call the cache holds the returned URL, so
every subsequent call is served from the cache with zero discovery requests;
when the cache is empty and extraction fails, the static fallback is
returned and, for any later environment (even one in which discovery would
succeed), subsequent calls keep returning the pinned fallback with zero
discovery requests; only clear_cache resets the cached URL. -/
theorem search_url_cache_pinning (env env2 : DiscoveryEnv) (c : Cache) :
    (∀ u, c.cached_search_url = some u → get_search_url env c = (u, c, 0)) ∧
    ((get_search_url env c).2.1.cached_search_url =
      some (get_search_url env c).1) ∧
    (c.cached_search_url = none → (extract_search_url env c).1 = none →
      (get_search_url env c).1 = SEARCH_URL ∧
      get_search_url env2 (get_search_url env c).2.1 =
        (SEARCH_URL, (get_search_url env c).2.1, 0)) ∧
    (clear_cache c).cached_search_url = none := by
  refine ⟨fun u hu => get_search_url_cached env c u hu, ?_, ?_, rfl⟩
  · cases hc : c.cached_search_url with
    | some u =>
      rw [get_search_url_cached env c u hc]
      exact hc
    | none =>
      rw [get_search_url_uncached env c hc]
      rcases he : extract_search_url env c with ⟨o, c2, n⟩
      cases o <;> rfl
  · intro h1 h2
    rw [get_search_url_uncached env c h1]
    rcases he : extract_search_url env c with ⟨o, c2, n⟩
    rw [he] at h2
    have h2 : o = none := h2
    subst h2
    constructor
    · rfl
    · exact get_search_url_cached env2
        { c2 with cached_search_url := some SEARCH_URL } SEARCH_URL rfl

/-- Witness for C10: after a failed discovery on an empty cache, the
fallback URL is pinned: a later call under an environment in which discovery
would succeed still returns the fallback with zero discovery requests. -/
theorem search_url_cache_pinning_witness :
    ((⟨none, none, none, none, 0⟩ : Cache).cached_search_url = none) ∧
    (extract_search_url
      ⟨none, fun _ => none, fun _ => [], fun _ => [], fun _ _ => false⟩
      ⟨none, none, none, none, 0⟩).1 = none ∧
    ((get_search_url
        ⟨none, fun _ => none, fun _ => [], fun _ => [], fun _ _ => false⟩
        ⟨none, none, none, none, 0⟩).1 = SEARCH_URL ∧
      get_search_url
        ⟨some "HP", fun _ => some "C", fun _ => ["s"], fun _ => ["search"],
          fun _ _ => true⟩
        (get_search_url
          ⟨none, fun _ => none, fun _ => [], fun _ => [], fun _ _ => false⟩
          ⟨none, none, none, none, 0⟩).2.1 =
        (SEARCH_URL,
          (get_search_url
            ⟨none, fun _ => none, fun _ => [], fun _ => [], fun _ _ => false⟩
            ⟨none, none, none, none, 0⟩).2.1, 0)) :=
  ⟨rfl, rfl,
    (search_url_cache_pinning
      ⟨none, fun _ => none, fun _ => [], fun _ => [], fun _ _ => false⟩
      ⟨some "HP", fun _ => some "C", fun _ => ["s"], fun _ => ["search"],
        fun _ _ => true⟩
      ⟨none, none, none, none, 0⟩).2.2.1 rfl rfl⟩
